import Mathlib

/-!
Verification of the streaming session orchestrator of the glass-cinema
project. The definitions below are shallow embeddings of the JavaScript
source under `src/`: the monolithic `src/main/streaming.js` and its
modular refactoring (`src/main/streaming/TorrentManager.js`,
`MediaServer`, `CastServer`, and the orchestrator module).
-/

namespace GlassCinema

/-! ## JavaScript number and string primitives

JS numbers in the range-serving code are integers or `NaN`
(from `parseInt` on a non-numeric string). `none` models `NaN`;
arithmetic propagates it, and string interpolation prints it as "NaN". -/

/-- A JS number as it appears in the range code: an integer or NaN. -/
abbrev JSNum := Option Int

/-- JS subtraction: NaN propagates. -/
def jsSub : JSNum → JSNum → JSNum
  | some a, some b => some (a - b)
  | _, _ => none

/-- JS addition: NaN propagates. -/
def jsAdd : JSNum → JSNum → JSNum
  | some a, some b => some (a + b)
  | _, _ => none

/-- Template-literal rendering of a JS number: NaN prints as "NaN". -/
def jsNumToString : JSNum → String
  | none => "NaN"
  | some n => toString n

/-- Whitespace skipped by `parseInt`. -/
def isJsSpace (c : Char) : Bool :=
  c = ' ' || c = '\t' || c = '\n' || c = '\r'

/-- Leading digit run of a character list. -/
def takeDigits (cs : List Char) : List Char :=
  cs.takeWhile Char.isDigit

/-- Numeric value of a digit run (most significant first). -/
def digitsToNat (ds : List Char) : Nat :=
  ds.foldl (fun n c => 10 * n + (c.toNat - 48)) 0

/-- JS `parseInt(s, 10)`: skip leading whitespace, optional sign, then the
leading digit run; NaN when no digit follows. -/
def parseIntCore (cs : List Char) : JSNum :=
  match cs.dropWhile isJsSpace with
  | [] => none
  | c :: rest =>
    if c = '-' then
      let ds := takeDigits rest
      if ds = [] then none else some (-(digitsToNat ds : Int))
    else if c = '+' then
      let ds := takeDigits rest
      if ds = [] then none else some ((digitsToNat ds : Int))
    else
      let ds := takeDigits (c :: rest)
      if ds = [] then none else some ((digitsToNat ds : Int))

/-- JS `parseInt` on a Lean string. -/
def parseIntJS (s : String) : JSNum := parseIntCore s.toList

/-- Whether `pat` is a leading segment of `l`. -/
def leadsList : List Char → List Char → Bool
  | [], _ => true
  | _ :: _, [] => false
  | p :: ps, c :: cs => p = c && leadsList ps cs

/-- Whether `pat` occurs contiguously anywhere in `l`. -/
def occursIn (pat : List Char) : List Char → Bool
  | [] => leadsList pat []
  | c :: cs => leadsList pat (c :: cs) || occursIn pat cs

/-- Substring occurrence on strings. -/
def strOccurs (pat s : String) : Bool := occursIn pat.toList s.toList

/-- JS `s.replace(/bytes=/, "")`: remove the first occurrence of `pat`. -/
def removeFirstOccur (pat : List Char) : List Char → List Char
  | [] => []
  | c :: cs =>
    if leadsList pat (c :: cs) then (c :: cs).drop pat.length
    else c :: removeFirstOccur pat cs

/-- The characters of the literal "bytes=". -/
def bytesEqChars : List Char := "bytes=".toList

/-- JS `split("-")` on a character list: never empty, keeps empty pieces. -/
def splitDashList : List Char → List (List Char)
  | [] => [[]]
  | c :: cs =>
    if c = '-' then [] :: splitDashList cs
    else
      match splitDashList cs with
      | [] => [[c]]
      | p :: ps => (c :: p) :: ps

/-! ## The byte-range video handler

`serveVideoFile` in the modular MediaServer and the video branch of
`serveLocalFile` in `streaming.js` share the parsing logic:

    const parts = range.replace(/bytes=/, "").split("-");
    const start = parseInt(parts[0], 10);
    const end = parts[1] ? parseInt(parts[1], 10) : fileSize - 1;
    ... 206 with Content-Range / Accept-Ranges / Content-Length ...
    else 200 with Content-Length, both with Access-Control-Allow-Origin: *.

They differ in where `fs.createReadStream(filePath, { start, end })` sits.
Its constructor validates the options synchronously and throws
ERR_OUT_OF_RANGE when start is not a non-negative integer (NaN included)
or start exceeds end. In the monolithic `serveLocalFile` (streaming.js
915) the stream is created before `res.writeHead(206, head)` (line 923)
with no try/catch, so an invalid range produces no response head at all.
The modular `serveVideoFile` writes the 206 head first, then the stream
constructor throws and the catch block calls `res.writeHead(500)`, which
itself throws because the head was already written. -/

/-- The response head written by the video route. -/
structure HttpResponse where
  status : Nat
  contentRange : Option String
  acceptRanges : Option String
  contentLength : JSNum
  contentType : Option String
  accessControlAllowOrigin : Option String
deriving DecidableEq, Repr

/-- The pieces of `range.replace(/bytes=/, "").split("-")`. -/
def rangeParts (r : String) : List (List Char) :=
  splitDashList (removeFirstOccur bytesEqChars r.toList)

/-- The value of `parseInt(parts[0], 10)`. -/
def rangeStart (r : String) : JSNum :=
  parseIntCore ((rangeParts r).headD [])

/-- The value of `parts[1] ? parseInt(parts[1], 10) : fileSize - 1`: JS truthiness sends
a missing or empty second piece to the default. -/
def rangeEnd (fileSize : Nat) (r : String) : JSNum :=
  match (rangeParts r).drop 1 with
  | [] => some ((fileSize : Int) - 1)
  | p :: _ => if p = [] then some ((fileSize : Int) - 1) else parseIntCore p

/-- The 200 response of the no-range branch. -/
def fullBodyResponse (fileSize : Nat) : HttpResponse :=
  { status := 200, contentRange := none, acceptRanges := none,
    contentLength := some (fileSize : Int), contentType := some "video/mp4",
    accessControlAllowOrigin := some "*" }

/-- The 206 head both handlers build from the parsed bounds. -/
def range206Head (fileSize : Nat) (start endv : JSNum) : HttpResponse :=
  { status := 206,
    contentRange := some ("bytes " ++ jsNumToString start ++ "-" ++
      jsNumToString endv ++ "/" ++ toString fileSize),
    acceptRanges := some "bytes",
    contentLength := jsAdd (jsSub endv start) (some 1),
    contentType := some "video/mp4",
    accessControlAllowOrigin := some "*" }

/-- Node `fs.createReadStream` option validation: the constructor accepts
the bounds only when start and end are integers with 0 ≤ start ≤ end;
a NaN bound or an inverted pair makes it throw ERR_OUT_OF_RANGE
synchronously. The end is not checked against the file size. -/
def readStreamAccepts : JSNum → JSNum → Bool
  | some a, some b => decide (0 ≤ a) && decide (a ≤ b)
  | _, _ => false

/-- The video route of the monolithic `serveLocalFile` (streaming.js
905-933): `fs.createReadStream` runs before `res.writeHead(206, head)`
and outside any try/catch, so a rejected range throws out of the handler
and no response head is written (`none`). `range` is
`req.headers.range`; `none` models an absent header, and JS truthiness
sends an empty string down the no-range branch as well. -/
def serveLocalFileVideo (fileSize : Nat) (range : Option String) :
    Option HttpResponse :=
  match range with
  | none => some (fullBodyResponse fileSize)
  | some r =>
    if r = "" then some (fullBodyResponse fileSize)
    else
      let start := rangeStart r
      let endv := rangeEnd fileSize r
      if readStreamAccepts start endv then
        some (range206Head fileSize start endv)
      else none

/-- Outcome of the modular `serveVideoFile` (MediaServer): either the
head is written and the body streamed, or the head was written and then
`fs.createReadStream` threw — the catch block attempts `writeHead(500)`,
which throws again because the head is already out. -/
inductive ModularServeOutcome
  | ok (resp : HttpResponse)
  | headWrittenThenThrow (resp : HttpResponse)
deriving DecidableEq, Repr

/-- The response head a modular outcome carries. -/
def modularHead : ModularServeOutcome → HttpResponse
  | .ok resp => resp
  | .headWrittenThenThrow resp => resp

/-- The modular `serveVideoFile` (MediaServer, src/unnamed/part_003
202-229): `res.writeHead(206, head)` precedes the stream creation, so an
invalid range still gets the 206 head (with the raw parsed values) before
the constructor throws. -/
def serveVideoFile (fileSize : Nat) (range : Option String) :
    ModularServeOutcome :=
  match range with
  | none => .ok (fullBodyResponse fileSize)
  | some r =>
    if r = "" then .ok (fullBodyResponse fileSize)
    else
      let start := rangeStart r
      let endv := rangeEnd fileSize r
      if readStreamAccepts start endv then
        .ok (range206Head fileSize start endv)
      else .headWrittenThenThrow (range206Head fileSize start endv)

/-! ## Primary-file selection

`TorrentManager.addTorrent` (and the torrent callback in `streaming.js`):

    file = torrent.files.reduce((a, b) => a.length > b.length ? a : b);
    activeFileIndex = torrent.files.indexOf(file);

`indexOf` compares by object identity, so the index of the object the
reduce kept is the one recorded; the fold below carries that array
position alongside the accumulator. -/

/-- A file entry of a resolved torrent: name and byte length. -/
structure TorrentFile where
  name : String
  length : Nat
deriving DecidableEq, Repr

/-- The reduce over `files`, carrying the array index of the object the
accumulator refers to; `i` is the index of the next element. -/
def selectFrom (acc : Nat × TorrentFile) (i : Nat) :
    List TorrentFile → Nat × TorrentFile
  | [] => acc
  | b :: bs =>
    selectFrom (if acc.2.length > b.length then acc else (i, b)) (i + 1) bs

/-- Primary-file selection: `reduce` throws on an empty array (`none`),
otherwise folds from the head. Returns the recorded index and file. -/
def selectPrimary : List TorrentFile → Option (Nat × TorrentFile)
  | [] => none
  | f :: fs => some (selectFrom (0, f) 1 fs)

lemma selectFrom_mem (bs : List TorrentFile) :
    ∀ (acc : Nat × TorrentFile) (i : Nat),
      selectFrom acc i bs = acc ∨
      ∃ k, ∃ hk : k < bs.length, selectFrom acc i bs = (i + k, bs.get ⟨k, hk⟩) := by
  induction bs with
  | nil => intro acc i; exact Or.inl rfl
  | cons b bs ih =>
    intro acc i
    rcases ih (if acc.2.length > b.length then acc else (i, b)) (i + 1) with h | ⟨k, hk, h⟩
    · rw [selectFrom, h]
      by_cases hc : acc.2.length > b.length
      · rw [if_pos hc]; exact Or.inl rfl
      · rw [if_neg hc]
        exact Or.inr ⟨0, by simp, by simp⟩
    · refine Or.inr ⟨k + 1, by simpa using hk, ?_⟩
      rw [selectFrom, h]
      have harith : i + (k + 1) = i + 1 + k := by omega
      rw [harith]
      rfl

lemma selectFrom_max (bs : List TorrentFile) :
    ∀ (acc : Nat × TorrentFile) (i : Nat),
      acc.2.length ≤ (selectFrom acc i bs).2.length ∧
      ∀ b ∈ bs, b.length ≤ (selectFrom acc i bs).2.length := by
  induction bs with
  | nil => intro acc i; exact ⟨le_refl _, by simp⟩
  | cons b bs ih =>
    intro acc i
    have step := ih (if acc.2.length > b.length then acc else (i, b)) (i + 1)
    have hacc : acc.2.length ≤ (if acc.2.length > b.length then acc else (i, b)).2.length := by
      by_cases hc : acc.2.length > b.length
      · rw [if_pos hc]
      · rw [if_neg hc]; exact Nat.le_of_not_lt hc
    have hb : b.length ≤ (if acc.2.length > b.length then acc else (i, b)).2.length := by
      by_cases hc : acc.2.length > b.length
      · rw [if_pos hc]; exact Nat.le_of_lt hc
      · rw [if_neg hc]
    refine ⟨?_, ?_⟩
    · rw [selectFrom]; exact le_trans hacc step.1
    · intro x hx
      rcases List.mem_cons.mp hx with rfl | hx
      · rw [selectFrom]; exact le_trans hb step.1
      · rw [selectFrom]; exact step.2 x hx

lemma selectFrom_later_smaller (bs : List TorrentFile) :
    ∀ (acc : Nat × TorrentFile) (i : Nat), acc.1 < i →
      ∀ k, ∀ hk : k < bs.length, (selectFrom acc i bs).1 < i + k →
        (bs.get ⟨k, hk⟩).length < (selectFrom acc i bs).2.length := by
  induction bs with
  | nil => intro acc i _ k hk; simp at hk
  | cons b bs ih =>
    intro acc i hlt k hk hidx
    have hacc' : (if acc.2.length > b.length then acc else (i, b)).1 < i + 1 := by
      by_cases hc : acc.2.length > b.length
      · rw [if_pos hc]; omega
      · rw [if_neg hc]; omega
    match k with
    | 0 =>
      rw [selectFrom] at hidx ⊢
      rcases selectFrom_mem bs (if acc.2.length > b.length then acc else (i, b)) (i + 1)
        with hres | ⟨m, hm, hres⟩
      · rw [hres] at hidx ⊢
        by_cases hc : acc.2.length > b.length
        · rw [if_pos hc]; exact hc
        · rw [if_neg hc] at hidx
          have h2 : i < i + 0 := hidx
          exact absurd h2 (by omega)
      · rw [hres] at hidx
        have h2 : i + 1 + m < i + 0 := hidx
        exact absurd h2 (by omega)
    | k + 1 =>
      rw [selectFrom] at hidx ⊢
      have := ih (if acc.2.length > b.length then acc else (i, b)) (i + 1) hacc'
        k (by simpa using hk) (by omega)
      simpa [List.get] using this

/-! ## Session lifecycle traces

`startStream` in `streaming.js` (and the orchestrator module): when a
previous server or client is live it awaits `forceCleanup()` before
constructing the new WebTorrent client, then either serves a finalized
local file (offline path) or calls `client.add`. The trace records the
observable resource events in program order; `await` is sequential
composition. `forceCleanup` does not wait unconditionally: the server
close task races its callback against a `setTimeout(res, 2000)`, the
client destroy task against a `setTimeout(res, 3000)`, and the whole
task set is raced against a 5 s timeout (streaming.js 712-719, 746-753,
761-764), after which the cleanup proceeds and the slow resource is
abandoned — still closing or still live — while the field reset and the
new client creation go ahead. -/

/-- Observable resource events of the orchestrator. An `Abandoned` event
records that the bounded timeout fired before the close/destroy callback,
so the cleanup proceeded with that teardown still incomplete. -/
inductive Ev
  | intervalCleared
  | serverClosed
  | serverCloseAbandoned
  | clientDestroyed
  | clientDestroyAbandoned
  | fieldsReset
  | clientCreated
  | localServe
  | torrentAdded
deriving DecidableEq, Repr

/-- Whether each awaited teardown callback fires within its bounded
timeout. A false flag means the timeout resolves the task first and the
resource is abandoned without its teardown having completed. -/
structure CleanupEnv where
  serverCloseCompletes : Bool
  clientDestroyCompletes : Bool
deriving DecidableEq, Repr

/-- The module-level session record of `streaming.js`. -/
structure SessionState where
  activeServer : Bool
  client : Bool
  activeTorrent : Bool
  progressInterval : Bool
  activeFileIndex : Option Nat
  activeFileName : Option String
  activePort : Option Nat
  isCastMode : Bool
  isClean : Bool
deriving DecidableEq, Repr

/-- The function `forceCleanup` (streaming.js 690-775): clears the
interval, nulls `activeServer`/`client`/`activeTorrent` eagerly, then
awaits the server close and the client destroy — each raced against its
own timeout (2 s close, 3 s destroy) and the whole set against a 5 s
timeout — and finally resets the remaining session fields. When a
callback loses its race (`env` flag false) the cleanup proceeds anyway
and the resource is abandoned with its teardown incomplete. -/
def forceCleanup (s : SessionState) (env : CleanupEnv) :
    SessionState × List Ev :=
  ({ activeServer := false, client := false, activeTorrent := false,
     progressInterval := false, activeFileIndex := none, activeFileName := none,
     activePort := none, isCastMode := false, isClean := true },
   (if s.progressInterval then [Ev.intervalCleared] else []) ++
   (if s.activeServer then
      [if env.serverCloseCompletes then Ev.serverClosed
       else Ev.serverCloseAbandoned]
    else []) ++
   (if s.client then
      [if env.clientDestroyCompletes then Ev.clientDestroyed
       else Ev.clientDestroyAbandoned]
    else []) ++
   [Ev.fieldsReset])

/-- The acquisition phase of `startStream` (streaming.js 111-195): mark
dirty, await cleanup when a server or client is live, construct the new
client, then either serve the finalized local file (when a btih hash was
extracted and `downloads/<hash>/video.mp4` exists — `localHit`) or add the
magnet to the client. -/
def startStreamAcquire (s : SessionState) (env : CleanupEnv)
    (localHit : Bool) : SessionState × List Ev :=
  let s0 : SessionState := { s with isClean := false }
  let cleaned :=
    if s0.activeServer || s0.client then forceCleanup s0 env else (s0, [])
  let s2 : SessionState := { cleaned.1 with client := true }
  let evs := cleaned.2 ++ [Ev.clientCreated]
  if localHit then
    ({ s2 with activeServer := true, activeFileIndex := some 0,
               activeFileName := some "video.mp4" }, evs ++ [Ev.localServe])
  else
    ({ s2 with activeTorrent := true }, evs ++ [Ev.torrentAdded])

/-- The `TorrentManager.addTorrent` event order: the local-file check precedes
client construction, so the offline path creates no client and adds no
torrent. -/
def addTorrentEvents (localHit : Bool) : List Ev :=
  if localHit then [Ev.localServe] else [Ev.clientCreated, Ev.torrentAdded]

/-- Index of the first occurrence of an event (list length when absent). -/
def firstIdxOf (e : Ev) : List Ev → Nat
  | [] => 0
  | x :: xs => if x = e then 0 else firstIdxOf e xs + 1

/-! ## Port binding with retry

`createAndBindServer` (streaming.js 236-268) and `MediaServer.serveTorrent`
share the retry logic:

    const portToTry = PREFERRED_PORT + retryPort;
    server.on("error", err => {
      if (err.code === "EADDRINUSE" && retryPort < 5) retry(retryPort + 1);
      else if (retryPort >= 5) server.listen(0, host, ...);
    });
    server.listen(portToTry, host, ...);

The OS is modelled by the outcome of each `listen` on a fixed port;
`listen(0)` requests an OS-assigned ephemeral port. The guard
`retryPort < 5` bounds the recursion depth at six fixed attempts, so a
fuel of 7 is never exhausted from the entry point. -/

/-- Outcome of a `listen` call. -/
inductive ListenOutcome
  | bound (port : Nat)
  | addrInUse
  | failed
deriving DecidableEq, Repr

/-- One bind attempt: a fixed port or an OS-assigned ephemeral one. -/
inductive BindAttempt
  | fixed (port : Nat)
  | ephemeral
deriving DecidableEq, Repr

/-- The sequence of bind attempts of `createAndBindServer`, given the OS
outcome for each fixed port. -/
def bindAttemptsFrom (out : Nat → ListenOutcome) (preferred : Nat) :
    Nat → Nat → List BindAttempt
  | _, 0 => []
  | retryPort, fuel + 1 =>
    let p := preferred + retryPort
    match out p with
    | .bound _ => [.fixed p]
    | .addrInUse =>
      if retryPort < 5 then
        .fixed p :: bindAttemptsFrom out preferred (retryPort + 1) fuel
      else [.fixed p, .ephemeral]
    | .failed =>
      if retryPort < 5 then [.fixed p] else [.fixed p, .ephemeral]

/-- Default preferred streaming port (`process.env.STREAM_PORT || 62182`). -/
def defaultStreamPort : Nat := 62182

/-- All bind attempts of a `createAndBindServer` call. -/
def createAndBindServerAttempts (out : Nat → ListenOutcome)
    (preferred : Nat) : List BindAttempt :=
  bindAttemptsFrom out preferred 0 7

/-! ## Cast server binding

`createNewCastServer` (streaming.js 354-407):

    const CAST_PORT = 8888;
    server.on("error", err => {
      if (err.code === "EADDRINUSE" && retryCount < 5)
        createNewCastServerWithRandomPort(localIp, resolveCallback);
      else resolveCallback(null);
    });
    server.listen(CAST_PORT, host, ...);

The EADDRINUSE handler goes straight to the random-port server — it never
retries another fixed port, and `retryCount` is never incremented. The
modular `CastServer.createTorrentCastServer` does the same with
`server.listen(0, wildcard, ...)` inside the error handler. -/

/-- Fixed cast port (`Samsung TV compatibility`). -/
def castPort : Nat := 8888

/-- Bind address of the cast servers (the host constant in the source). -/
def castHostAddr : String := "0.0.0.0"

/-- Environment of one cast-server creation: outcomes of the fixed-port
listen and of the ephemeral-port listen. -/
structure CastEnv where
  fixedListen : ListenOutcome
  randomListen : ListenOutcome
deriving DecidableEq, Repr

/-- Bind attempts of `createNewCastServer` with the given retryCount. -/
def createNewCastServerAttempts (env : CastEnv) (retryCount : Nat) :
    List BindAttempt :=
  match env.fixedListen with
  | .bound _ => [.fixed castPort]
  | .addrInUse =>
    if retryCount < 5 then [.fixed castPort, .ephemeral] else [.fixed castPort]
  | .failed => [.fixed castPort]

/-- Bind attempts of the modular `createTorrentCastServer` /
`createLocalCastServer`: EADDRINUSE falls directly to `listen(0)`. -/
def castServerAttemptsModular (env : CastEnv) : List BindAttempt :=
  match env.fixedListen with
  | .bound _ => [.fixed castPort]
  | .addrInUse => [.fixed castPort, .ephemeral]
  | .failed => [.fixed castPort]

/-! ## Cast URLs and `rebindServerForCast` -/

/-- Characters `encodeURIComponent` leaves unescaped. -/
def isUnescapedURIChar (c : Char) : Bool :=
  c.isAlphanum || c = '-' || c = '_' || c = '.' || c = '!' || c = '~' ||
  c = '*' || c = Char.ofNat 39 || c = '(' || c = ')'

/-- Uppercase hex digit. -/
def hexDigitChar (n : Nat) : Char :=
  if n < 10 then Char.ofNat (48 + n) else Char.ofNat (55 + n)

/-- UTF-8 bytes of a code point. -/
def charUtf8Bytes (c : Char) : List Nat :=
  let n := c.toNat
  if n < 128 then [n]
  else if n < 2048 then [192 + n / 64, 128 + n % 64]
  else if n < 65536 then [224 + n / 4096, 128 + n / 64 % 64, 128 + n % 64]
  else [240 + n / 262144, 128 + n / 4096 % 64, 128 + n / 64 % 64, 128 + n % 64]

/-- Percent-encoding of one byte. -/
def percentEncodeByte (b : Nat) : List Char :=
  ['%', hexDigitChar (b / 16), hexDigitChar (b % 16)]

/-- JS `encodeURIComponent`. -/
def encodeURIComponent (s : String) : String :=
  ⟨s.toList.flatMap fun c =>
    if isUnescapedURIChar c then [c]
    else (charUtf8Bytes c).flatMap percentEncodeByte⟩

/-- The URL template of every cast resolution site:
`http://<localIp>:<port>/<fileIndex>/<encodeURIComponent(fileName)>`. -/
def castUrl (localIp : String) (port : Nat) (fileIndex : Nat)
    (fileName : String) : String :=
  "http://" ++ localIp ++ ":" ++ toString port ++ "/" ++ toString fileIndex ++
    "/" ++ encodeURIComponent fileName

/-- The URL of the modular local-file cast path:
`http://<localIp>:<port>/video.mp4`. -/
def castLocalUrl (localIp : String) (port : Nat) : String :=
  "http://" ++ localIp ++ ":" ++ toString port ++ "/video.mp4"

/-- JS `encodeURIComponent` stringifies its argument first, so a null file
name becomes the string "null" before encoding. -/
def fileNameArg : Option String → String
  | some n => n
  | none => "null"

/-- Resolution of `createNewCastServer` (streaming.js 354-456): the fixed
listen succeeding resolves the URL at its bound port; EADDRINUSE with
`retryCount < 5` resolves through the random-port server, whose own error
resolves null; any other fixed-listen error resolves null. -/
def createNewCastServerResult (localIp : String) (fileIndex : Nat)
    (fileName : Option String) (env : CastEnv) (retryCount : Nat) :
    Option String :=
  match env.fixedListen with
  | .bound p => some (castUrl localIp p fileIndex (fileNameArg fileName))
  | .addrInUse =>
    if retryCount < 5 then
      match env.randomListen with
      | .bound p => some (castUrl localIp p fileIndex (fileNameArg fileName))
      | _ => none
    else none
  | .failed => none

/-- The torrent fields `rebindServerForCast` reads. -/
structure RebindState where
  activeTorrent : Bool
  torrentFiles : List TorrentFile
  activeFileIndex : Option Nat
  activeFileName : Option String
deriving DecidableEq, Repr

/-- The function `rebindServerForCast` (streaming.js 313-348): null without an active
torrent or recorded file index, null when `files[activeFileIndex]` is
missing; otherwise it closes the old server and resolves through
`createNewCastServer(localIp, resolve)` with `retryCount = 0`. -/
def rebindServerForCast (st : RebindState) (localIp : String)
    (env : CastEnv) : Option String :=
  if st.activeTorrent = false then none
  else match st.activeFileIndex with
  | none => none
  | some idx =>
    match st.torrentFiles.get? idx with
    | none => none
    | some _ => createNewCastServerResult localIp idx st.activeFileName env 0

/-- Resolution of the modular `createTorrentCastServer`: the fixed listen
succeeding resolves the URL; EADDRINUSE re-listens on port 0 and resolves
there; other errors resolve null. -/
def createTorrentCastServerResult (localIp : String) (fileIndex : Nat)
    (fileName : Option String) (env : CastEnv) : Option String :=
  match env.fixedListen with
  | .bound p => some (castUrl localIp p fileIndex (fileNameArg fileName))
  | .addrInUse =>
    match env.randomListen with
    | .bound p => some (castUrl localIp p fileIndex (fileNameArg fileName))
    | _ => none
  | .failed => none

/-- Resolution of the modular `createLocalCastServer`: same shape around
the `/video.mp4` URL. -/
def createLocalCastServerResult (localIp : String) (env : CastEnv) :
    Option String :=
  match env.fixedListen with
  | .bound p => some (castLocalUrl localIp p)
  | .addrInUse =>
    match env.randomListen with
    | .bound p => some (castLocalUrl localIp p)
    | _ => none
  | .failed => none

/-- Host part of a generated URL: the characters after "http://" and
before the first colon. -/
def hostOfUrl (u : String) : String :=
  ⟨(u.toList.drop 7).takeWhile (fun c => c ≠ ':')⟩

/-! ## Acquisition result and zero-file failure

`TorrentManager.addTorrent`: the reduce over `torrent.files` throws on an
empty array; the catch rejects the acquisition promise. The orchestrator
module wraps the await in try/catch: a rejection logs, resolves the
stream-ready promise false, sets `isClean = true`, and never invokes
`onReady`. -/

/-- Acquisition failure taxonomy. -/
inductive AcquireError
  | noFilesInSource
deriving DecidableEq, Repr

/-- Successful acquisition: the recorded primary file index and name. -/
structure AcquireOk where
  fileIndex : Nat
  fileName : String
deriving DecidableEq, Repr

/-- The torrent-added callback of `addTorrent` (TorrentManager.js 38-58):
reduce selects the primary file or the promise rejects on zero files. -/
def resolveTorrent (files : List TorrentFile) : Except AcquireError AcquireOk :=
  match selectPrimary files with
  | none => .error .noFilesInSource
  | some (i, f) => .ok ⟨i, f.name⟩

/-- How `startStream` in the orchestrator module consumes the acquisition
result: a rejection is caught (aborted: `isClean := true`, stream-ready
resolves false, `onReady` never called); success proceeds to serving. -/
inductive StartOutcome
  | aborted (isClean : Bool) (streamReady : Bool)
  | serving (fileIndex : Nat) (fileName : String)
deriving DecidableEq, Repr

/-- The try/catch around `await torrentManager.addTorrent(magnet)`. -/
def startStreamHandleAcquire : Except AcquireError AcquireOk → StartOutcome
  | .error _ => .aborted true false
  | .ok ok => .serving ok.fileIndex ok.fileName

/-- The torrent callback of the monolithic `startStream` (streaming.js
166-194): the catch around the reduce logs and returns, so no server is
created and `onReady` is never invoked — the selection result is the
index/name pair when files exist, nothing otherwise. -/
def legacyTorrentCallback (files : List TorrentFile) : Option (Nat × String) :=
  (selectPrimary files).map fun p => (p.1, p.2.name)

/-! ## Progress ticking

`finalizeServerStart` (streaming.js 289-305) installs a 1 s interval:

    progressInterval = setInterval(() => {
      if (!torrent || torrent.destroyed) { clearInterval(progressInterval); return; }
      onProgress({ downloadSpeed, progress, downloaded, total });
    }, 1000);

The only self-cancellation condition is the destroyed flag (the modular
orchestrator cancels when `getProgress()` returns null, which happens
exactly when the torrent is absent or destroyed). -/

/-- What the tick reads from the swarm handle at one instant. -/
structure SwarmSnapshot where
  destroyed : Bool
  clientSpeed : ℚ
  progress : ℚ
  downloaded : ℚ
  total : ℚ
deriving DecidableEq

/-- The stats object delivered to `onProgress`. -/
structure ProgressStats where
  downloadSpeed : ℚ
  progress : ℚ
  downloaded : ℚ
  total : ℚ
deriving DecidableEq

/-- Outcome of one interval iteration. -/
inductive TickOutcome
  | cancelled
  | reported (stats : ProgressStats)
deriving DecidableEq

/-- One iteration of the progress interval. -/
def progressTickIter (torrent : Option SwarmSnapshot) : TickOutcome :=
  match torrent with
  | none => .cancelled
  | some t =>
    if t.destroyed then .cancelled
    else .reported ⟨t.clientSpeed, t.progress, t.downloaded, t.total⟩

/-- The stats deliveries over a timeline of snapshots: the interval stops
at its first self-cancellation. -/
def deliveredTicks : List (Option SwarmSnapshot) → List ProgressStats
  | [] => []
  | snap :: rest =>
    match progressTickIter snap with
    | .cancelled => []
    | .reported s => s :: deliveredTicks rest

/-- Whether a snapshot makes the tick self-cancel. -/
def snapGone : Option SwarmSnapshot → Bool
  | none => true
  | some t => t.destroyed

/-! ## Helper lemmas -/

lemma deliveredTicks_stops (snaps : List (Option SwarmSnapshot)) :
    ∀ i, ∀ hi : i < snaps.length, snapGone (snaps.get ⟨i, hi⟩) = true →
      (deliveredTicks snaps).length ≤ i := by
  induction snaps with
  | nil => intro i hi; simp at hi
  | cons snap rest ih =>
    intro i hi hgone
    match i with
    | 0 =>
      have hcan : progressTickIter snap = .cancelled := by
        match snap with
        | none => rfl
        | some t =>
          have : t.destroyed = true := hgone
          simp [progressTickIter, this]
      rw [deliveredTicks, hcan]
      simp
    | i + 1 =>
      rw [deliveredTicks]
      cases hpt : progressTickIter snap with
      | cancelled => simp
      | reported s => simpa using ih i (by simpa using hi) hgone


/-! ## Claim theorems -/

/-- Claim C7: a resolved swarm with zero files makes the acquisition fail
with `NoFilesInSource`, surfaced as a rejected acquisition; the
catch in the orchestrator leaves the session clean (Idle), never invokes the
`onReady` callback, and does not crash (the monolithic callback likewise
returns without serving). -/
theorem zeroFiles_acquisition_aborts :
    resolveTorrent [] = .error .noFilesInSource ∧
    startStreamHandleAcquire (resolveTorrent []) = .aborted true false ∧
    legacyTorrentCallback [] = none := by
  exact ⟨rfl, rfl, rfl⟩

/-- Claim C2, counterexample: with the tied lengths `[50, 50]` the reduce
keeps the second file (index 1), not the first-seen one (index 0), so ties
are not broken by first-seen order. -/
theorem primary_tie_counterexample :
    selectPrimary [⟨"a", 50⟩, ⟨"b", 50⟩] = some (1, ⟨"b", 50⟩) ∧
    selectPrimary [⟨"a", 50⟩, ⟨"b", 50⟩] ≠ some (0, ⟨"a", 50⟩) := by
  decide

/-- Claim C2 (amended): acquisition selects the torrent file of maximum
byte length with ties broken by last-seen order (every strictly later file
is strictly shorter than the selected one), and for file lengths
`[10, 50, 30]` the file at index 1 (length 50) is selected. -/
theorem selectPrimary_max_lastTie :
    (∀ (files : List TorrentFile) (i : Nat) (f : TorrentFile),
      selectPrimary files = some (i, f) →
        files.get? i = some f ∧
        (∀ g ∈ files, g.length ≤ f.length) ∧
        (∀ j, i < j → ∀ hj : j < files.length,
          (files.get ⟨j, hj⟩).length < f.length)) ∧
    selectPrimary [⟨"a", 10⟩, ⟨"b", 50⟩, ⟨"c", 30⟩] = some (1, ⟨"b", 50⟩) := by
  constructor
  · intro files i f h
    match files with
    | [] => simp [selectPrimary] at h
    | f0 :: fs =>
      rw [selectPrimary, Option.some_inj] at h
      refine ⟨?_, ?_, ?_⟩
      · rcases selectFrom_mem fs (0, f0) 1 with hm | ⟨k, hk, hm⟩
        · rw [h] at hm
          have hi : i = 0 := congrArg Prod.fst hm
          have hf : f = f0 := congrArg Prod.snd hm
          subst hi; subst hf; rfl
        · rw [h] at hm
          have hi : i = 1 + k := congrArg Prod.fst hm
          have hf : f = fs.get ⟨k, hk⟩ := congrArg Prod.snd hm
          subst hf
          have hik : i = k + 1 := by omega
          subst hik
          simpa using List.get?_eq_get hk
      · intro g hg
        have hmax := selectFrom_max fs (0, f0) 1
        rcases List.mem_cons.mp hg with rfl | hg
        · have := hmax.1
          rw [h] at this
          exact this
        · have := hmax.2 g hg
          rw [h] at this
          exact this
      · intro j hij hj
        match j with
        | 0 => omega
        | k + 1 =>
          have hlater := selectFrom_later_smaller fs (0, f0) 1 (by simp)
            k (by simpa using hj) (by rw [h]; omega)
          rw [h] at hlater
          exact hlater
  · decide

/-- Claim C2, witness: the general part applied to `[10, 50, 30]`. -/
theorem selectPrimary_max_lastTie_witness :
    ([⟨"a", 10⟩, ⟨"b", 50⟩, ⟨"c", 30⟩] : List TorrentFile).get? 1 =
      some ⟨"b", 50⟩ := by
  exact (selectPrimary_max_lastTie.1 _ 1 ⟨"b", 50⟩ (by decide)).1

/-- An idle session state, as after a completed cleanup. -/
def idleState : SessionState :=
  { activeServer := false, client := false, activeTorrent := false,
    progressInterval := false, activeFileIndex := none, activeFileName := none,
    activePort := none, isCastMode := false, isClean := true }

/-- A cleanup environment in which both teardown callbacks fire within
their timeouts. -/
def fastCleanupEnv : CleanupEnv :=
  { serverCloseCompletes := true, clientDestroyCompletes := true }

/-- Claim C3, counterexample: even from an idle state, the monolithic
`startStream` constructs the WebTorrent client before the offline check,
so the offline path (local file present) still creates a swarm client —
though it serves the local file and adds no torrent. -/
theorem offline_client_created_counterexample :
    Ev.clientCreated ∈ (startStreamAcquire idleState fastCleanupEnv true).2 ∧
    Ev.localServe ∈ (startStreamAcquire idleState fastCleanupEnv true).2 ∧
    Ev.torrentAdded ∉ (startStreamAcquire idleState fastCleanupEnv true).2 := by
  decide

/-- Claim C3 (amended): when the finalized file exists, `startStream`
serves the local file and adds no torrent to any client; the monolithic
version still constructs a swarm client beforehand, while the refactored
`TorrentManager.addTorrent` checks the local path before client creation
and creates no client at all. -/
theorem offline_serves_local_no_torrent (s : SessionState) (env : CleanupEnv) :
    Ev.localServe ∈ (startStreamAcquire s env true).2 ∧
    Ev.torrentAdded ∉ (startStreamAcquire s env true).2 ∧
    addTorrentEvents true = [Ev.localServe] ∧
    Ev.clientCreated ∉ addTorrentEvents true ∧
    Ev.torrentAdded ∉ addTorrentEvents true := by
  obtain ⟨as, cl, at0, pi, afi, afn, ap, icm, icl⟩ := s
  obtain ⟨sc, cd⟩ := env
  cases as <;> cases cl <;> cases pi <;> cases sc <;> cases cd <;>
    simp [startStreamAcquire, forceCleanup, addTorrentEvents]

/-- Claim C3, witness: the amended theorem applied to the idle state. -/
theorem offline_serves_local_no_torrent_witness :
    Ev.localServe ∈ (startStreamAcquire idleState fastCleanupEnv true).2 ∧
    Ev.clientCreated ∉ addTorrentEvents true :=
  ⟨(offline_serves_local_no_torrent idleState fastCleanupEnv).1,
   (offline_serves_local_no_torrent idleState fastCleanupEnv).2.2.2.1⟩

/-- A snapshot of a live torrent at 100% progress. -/
def fullProgressSnap : SwarmSnapshot :=
  { destroyed := false, clientSpeed := 0, progress := 1,
    downloaded := 100, total := 100 }

/-- Claim C9, counterexample: a live (not destroyed) torrent whose
progress fraction equals 1 still gets its tick delivered — the interval
body checks only the destroyed flag, so ticking does not stop at 100%. -/
theorem tick_at_full_progress_counterexample :
    progressTickIter (some fullProgressSnap) =
      .reported { downloadSpeed := 0, progress := 1, downloaded := 100, total := 100 } ∧
    progressTickIter (some fullProgressSnap) ≠ .cancelled ∧
    deliveredTicks [some fullProgressSnap, some fullProgressSnap] =
      [{ downloadSpeed := 0, progress := 1, downloaded := 100, total := 100 },
       { downloadSpeed := 0, progress := 1, downloaded := 100, total := 100 }] := by
  refine ⟨rfl, by decide, rfl⟩

/-- Claim C9 (amended): while a swarm source is exposed the 1 s tick
reports {download speed, fraction, downloaded bytes, total bytes}; each
iteration inspects the destroyed flag and self-cancels, so no tick is
delivered at or after a snapshot where the handle is destroyed (or gone);
ticking does not stop at 100% progress — it continues until destruction. -/
theorem tick_cancels_on_destroyed :
    (∀ t : SwarmSnapshot, t.destroyed = true →
      progressTickIter (some t) = .cancelled) ∧
    progressTickIter none = .cancelled ∧
    (∀ t : SwarmSnapshot, t.destroyed = false →
      progressTickIter (some t) =
        .reported { downloadSpeed := t.clientSpeed, progress := t.progress,
                    downloaded := t.downloaded, total := t.total }) ∧
    (∀ (snaps : List (Option SwarmSnapshot)) (i : Nat) (hi : i < snaps.length),
      snapGone (snaps.get ⟨i, hi⟩) = true →
        (deliveredTicks snaps).length ≤ i) := by
  refine ⟨?_, rfl, ?_, fun snaps i hi h => deliveredTicks_stops snaps i hi h⟩
  · intro t h; simp [progressTickIter, h]
  · intro t h; simp [progressTickIter, h]

/-- A snapshot of a torrent whose destroyed flag is set. -/
def destroyedSnap : SwarmSnapshot :=
  { destroyed := true, clientSpeed := 0, progress := 0,
    downloaded := 0, total := 0 }

/-- Claim C9, witness: the theorem applied to a destroyed snapshot and to
a two-snapshot timeline whose first entry is destroyed. -/
theorem tick_cancels_on_destroyed_witness :
    progressTickIter (some destroyedSnap) = .cancelled ∧
    (deliveredTicks [some destroyedSnap, some fullProgressSnap]).length ≤ 0 := by
  constructor
  · exact tick_cancels_on_destroyed.1 destroyedSnap rfl
  · exact tick_cancels_on_destroyed.2.2.2 _ 0 (by decide) rfl

/-- A fully live session state: listener bound, client and torrent
active, progress interval running. -/
def liveState : SessionState :=
  { activeServer := true, client := true, activeTorrent := true,
    progressInterval := true, activeFileIndex := some 0,
    activeFileName := some "video.mp4", activePort := some 62182,
    isCastMode := false, isClean := false }

/-- A cleanup environment in which the server close completes but the
client destroy does not fire before its timeout: the cleanup proceeds
and abandons the still-live client. -/
def slowDestroyEnv : CleanupEnv :=
  { serverCloseCompletes := true, clientDestroyCompletes := false }

/-- Claim C1, counterexample: when the previous client destroy callback
does not fire within its bounded timeout, `startStream` proceeds — the
new WebTorrent client is created and the torrent added while the old
swarm client destroy has not completed (it is abandoned), so the full
teardown does not complete first and two swarm clients can coexist. -/
theorem teardown_abandoned_counterexample :
    Ev.clientCreated ∈ (startStreamAcquire liveState slowDestroyEnv false).2 ∧
    Ev.torrentAdded ∈ (startStreamAcquire liveState slowDestroyEnv false).2 ∧
    Ev.clientDestroyed ∉ (startStreamAcquire liveState slowDestroyEnv false).2 ∧
    Ev.clientDestroyAbandoned ∈
      (startStreamAcquire liveState slowDestroyEnv false).2 := by
  decide

/-- Claim C1 (amended): when `startStream` runs while the listener or
swarm client of the previous session is live, the cleanup is awaited —
not fire-and-forget — so the session-field reset precedes the new client
creation and any torrent add, and each live resource is either torn down
or abandoned after its bounded timeout before the new client exists;
when the close and destroy callbacks fire within their timeouts the old
listener is closed and the old client destroyed before the new swarm
client is created, but a callback missing its timeout leaves that
resource abandoned still live while the new client is created. -/
theorem startStream_awaits_bounded_teardown (s : SessionState)
    (env : CleanupEnv) (localHit : Bool)
    (h : s.activeServer = true ∨ s.client = true) :
    Ev.fieldsReset ∈ (startStreamAcquire s env localHit).2 ∧
    Ev.clientCreated ∈ (startStreamAcquire s env localHit).2 ∧
    firstIdxOf Ev.fieldsReset (startStreamAcquire s env localHit).2 <
      firstIdxOf Ev.clientCreated (startStreamAcquire s env localHit).2 ∧
    (s.activeServer = true → env.serverCloseCompletes = true →
      Ev.serverClosed ∈ (startStreamAcquire s env localHit).2 ∧
      firstIdxOf Ev.serverClosed (startStreamAcquire s env localHit).2 <
        firstIdxOf Ev.clientCreated (startStreamAcquire s env localHit).2) ∧
    (s.activeServer = true → env.serverCloseCompletes = false →
      Ev.serverCloseAbandoned ∈ (startStreamAcquire s env localHit).2 ∧
      Ev.serverClosed ∉ (startStreamAcquire s env localHit).2) ∧
    (s.client = true → env.clientDestroyCompletes = true →
      Ev.clientDestroyed ∈ (startStreamAcquire s env localHit).2 ∧
      firstIdxOf Ev.clientDestroyed (startStreamAcquire s env localHit).2 <
        firstIdxOf Ev.clientCreated (startStreamAcquire s env localHit).2) ∧
    (s.client = true → env.clientDestroyCompletes = false →
      Ev.clientDestroyAbandoned ∈ (startStreamAcquire s env localHit).2 ∧
      Ev.clientDestroyed ∉ (startStreamAcquire s env localHit).2) ∧
    (Ev.torrentAdded ∈ (startStreamAcquire s env localHit).2 →
      firstIdxOf Ev.fieldsReset (startStreamAcquire s env localHit).2 <
        firstIdxOf Ev.torrentAdded (startStreamAcquire s env localHit).2) ∧
    (forceCleanup { s with isClean := false } env).1.activeServer = false ∧
    (forceCleanup { s with isClean := false } env).1.client = false := by
  obtain ⟨as, cl, at0, pi, afi, afn, ap, icm, icl⟩ := s
  obtain ⟨sc, cd⟩ := env
  have hor : as = true ∨ cl = true := by simpa using h
  clear h
  cases as
  case false =>
    cases cl
    case false => exact absurd hor (by simp)
    case true =>
      cases pi <;> cases localHit <;> cases sc <;> cases cd <;>
        refine ⟨?_, ?_, ?_, ?_, ?_, ?_, ?_, ?_, rfl, rfl⟩ <;>
        simp [startStreamAcquire, forceCleanup, firstIdxOf]
  case true =>
    cases cl <;> cases pi <;> cases localHit <;> cases sc <;> cases cd <;>
      refine ⟨?_, ?_, ?_, ?_, ?_, ?_, ?_, ?_, rfl, rfl⟩ <;>
      simp [startStreamAcquire, forceCleanup, firstIdxOf]

/-- Claim C1, witness: the theorem applied to a fully live previous
session whose teardown callbacks complete in time. -/
theorem startStream_awaits_bounded_teardown_witness :
    Ev.serverClosed ∈ (startStreamAcquire liveState fastCleanupEnv false).2 ∧
    firstIdxOf Ev.serverClosed
      (startStreamAcquire liveState fastCleanupEnv false).2 <
      firstIdxOf Ev.clientCreated
        (startStreamAcquire liveState fastCleanupEnv false).2 := by
  exact (startStream_awaits_bounded_teardown liveState fastCleanupEnv false
    (Or.inl rfl)).2.2.2.1 rfl rfl

lemma bindAttemptsFrom_chain (out : Nat → ListenOutcome) (pref : Nat) :
    ∀ (k r fuel : Nat), r + k ≤ 5 → k < fuel →
      (∀ j, j < k → out (pref + (r + j)) = .addrInUse) →
      out (pref + (r + k)) = .bound (pref + (r + k)) →
      bindAttemptsFrom out pref r fuel =
        (List.range (k + 1)).map (fun j => BindAttempt.fixed (pref + (r + j))) := by
  intro k
  induction k with
  | zero =>
    intro r fuel _ hfuel _ hbound
    match fuel, hfuel with
    | fuel + 1, _ =>
      rw [bindAttemptsFrom]
      simp only [Nat.add_zero] at hbound
      simp only [hbound]
      rw [show List.range 1 = [0] from by decide]
      simp
  | succ k ih =>
    intro r fuel hr hfuel hbusy hbound
    match fuel, hfuel with
    | fuel + 1, hfuel =>
      rw [bindAttemptsFrom]
      have h0 : out (pref + r) = .addrInUse := by
        have := hbusy 0 (by omega)
        simpa using this
      simp only [h0]
      rw [if_pos (by omega : r < 5)]
      rw [ih (r + 1) fuel (by omega) (by omega)
        (fun j hj => by
          have := hbusy (j + 1) (by omega)
          rw [show r + 1 + j = r + (j + 1) from by omega]
          exact this)
        (by rw [show r + 1 + k = r + (k + 1) from by omega]; exact hbound)]
      conv_rhs => rw [List.range_succ_eq_map]
      simp only [List.map_cons, List.map_map]
      refine congrArg₂ List.cons (by norm_num) ?_
      apply List.map_congr_left
      intro j _
      simp only [Function.comp_apply]
      exact congrArg BindAttempt.fixed (by omega)

/-- The OS state of the C4 scenario: ports 62182 through 62186 occupied,
everything else free. -/
def occupiedTo62186 : Nat → ListenOutcome := fun p =>
  if 62182 ≤ p ∧ p ≤ 62186 then .addrInUse else .bound p

/-- Claim C4, counterexample: with 62182..62186 all occupied, the sixth
bind attempt is the fixed port 62187 — not an OS-assigned ephemeral port;
the server binds a seventh fixed port before any ephemeral fallback. -/
theorem port_sixth_attempt_counterexample :
    createAndBindServerAttempts occupiedTo62186 defaultStreamPort =
      [.fixed 62182, .fixed 62183, .fixed 62184, .fixed 62185,
       .fixed 62186, .fixed 62187] ∧
    (createAndBindServerAttempts occupiedTo62186 defaultStreamPort).get? 5 =
      some (.fixed 62187) ∧
    (createAndBindServerAttempts occupiedTo62186 defaultStreamPort).get? 5 ≠
      some .ephemeral := by
  refine ⟨by decide, by decide, by decide⟩

/-- Claim C4 (amended): the preferred port (STREAM_PORT, default 62182) is
tried first; each address-in-use failure moves to the next port up to five
retries, so the fixed ports preferred..preferred+5 are tried in order, and
only when all six are occupied does the seventh attempt fall back to an
OS-assigned ephemeral port; a free port in that window stops the chain
there. -/
theorem port_retry_policy :
    (∀ (out : Nat → ListenOutcome) (pref k : Nat), k ≤ 5 →
      (∀ j, j < k → out (pref + j) = .addrInUse) →
      out (pref + k) = .bound (pref + k) →
      createAndBindServerAttempts out pref =
        (List.range (k + 1)).map (fun j => BindAttempt.fixed (pref + j))) ∧
    (∀ (out : Nat → ListenOutcome) (pref : Nat),
      (∀ j, j ≤ 5 → out (pref + j) = .addrInUse) →
      createAndBindServerAttempts out pref =
        [.fixed pref, .fixed (pref + 1), .fixed (pref + 2), .fixed (pref + 3),
         .fixed (pref + 4), .fixed (pref + 5), .ephemeral]) ∧
    defaultStreamPort = 62182 := by
  refine ⟨?_, ?_, rfl⟩
  · intro out pref k hk hbusy hbound
    rw [createAndBindServerAttempts]
    have := bindAttemptsFrom_chain out pref k 0 7 (by omega) (by omega)
      (fun j hj => by simpa using hbusy j hj) (by simpa using hbound)
    rw [this]
    apply List.map_congr_left
    intro j _
    simp
  · intro out pref hbusy
    have h0 := hbusy 0 (by omega)
    have h1 := hbusy 1 (by omega)
    have h2 := hbusy 2 (by omega)
    have h3 := hbusy 3 (by omega)
    have h4 := hbusy 4 (by omega)
    have h5 := hbusy 5 (by omega)
    rw [show pref + 0 = pref from by omega] at h0
    rw [createAndBindServerAttempts]
    rw [bindAttemptsFrom]
    simp only [Nat.add_zero, h0, if_pos (by omega : 0 < 5)]
    rw [bindAttemptsFrom]
    simp only [h1, if_pos (by omega : 1 < 5)]
    rw [bindAttemptsFrom]
    simp only [h2, if_pos (by omega : 2 < 5)]
    rw [bindAttemptsFrom]
    simp only [h3, if_pos (by omega : 3 < 5)]
    rw [bindAttemptsFrom]
    simp only [h4, if_pos (by omega : 4 < 5)]
    rw [bindAttemptsFrom]
    simp only [h5]
    rw [if_neg (by omega : ¬ 5 < 5)]

/-- Claim C4, witness: the general chain applied to the 62182-busy,
62183-free environment — the second attempt binds the next fixed port. -/
theorem port_retry_policy_witness :
    createAndBindServerAttempts
      (fun p => if p = 62182 then .addrInUse else .bound p) 62182 =
      [.fixed 62182, .fixed 62183] := by
  have h := port_retry_policy.1
    (fun p => if p = 62182 then .addrInUse else .bound p) 62182 1
    (by omega) (fun j hj => by interval_cases j <;> simp)
    (by simp)
  rw [h]
  decide

/-- A cast environment where port 8888 is occupied and the ephemeral
listen binds 50123. -/
def castBusyEnv : CastEnv := { fixedListen := .addrInUse, randomListen := .bound 50123 }

/-- Claim C6, counterexample: when port 8888 is in use, the second bind
attempt of the cast server is an OS-assigned ephemeral port — it is not
the fixed port 8889, and no fixed port other than 8888 is ever attempted,
so the bounded fixed-port retry policy of the streaming listener is not
applied. -/
theorem cast_no_fixed_retry_counterexample :
    createNewCastServerAttempts castBusyEnv 0 = [.fixed 8888, .ephemeral] ∧
    (createNewCastServerAttempts castBusyEnv 0).get? 1 = some .ephemeral ∧
    (createNewCastServerAttempts castBusyEnv 0).get? 1 ≠
      some (.fixed 8889) ∧
    BindAttempt.fixed 8889 ∉ createNewCastServerAttempts castBusyEnv 0 ∧
    castServerAttemptsModular castBusyEnv = [.fixed 8888, .ephemeral] := by
  refine ⟨by decide, by decide, by decide, by decide, by decide⟩

/-- Claim C6 (amended): the cast rebind binds the new listener to 0.0.0.0
on the fixed cast port 8888; on an address-in-use failure it falls back
directly to an OS-assigned ephemeral port — a single fallback with no
fixed-port retries (unlike the streaming listener policy). -/
theorem cast_bind_direct_ephemeral :
    (∀ (env : CastEnv) (retryCount : Nat),
      createNewCastServerAttempts env retryCount = [.fixed castPort] ∨
      createNewCastServerAttempts env retryCount =
        [.fixed castPort, .ephemeral]) ∧
    (∀ (env : CastEnv) (retryCount p : Nat),
      .fixed p ∈ createNewCastServerAttempts env retryCount → p = castPort) ∧
    (∀ env : CastEnv,
      castServerAttemptsModular env = [.fixed castPort] ∨
      castServerAttemptsModular env = [.fixed castPort, .ephemeral]) ∧
    (∀ (env : CastEnv) (retryCount : Nat),
      (createNewCastServerAttempts env retryCount).headD .ephemeral =
        .fixed castPort) ∧
    castHostAddr = "0.0.0.0" ∧ castPort = 8888 := by
  refine ⟨?_, ?_, ?_, ?_, rfl, rfl⟩
  · intro env retryCount
    obtain ⟨fl, rl⟩ := env
    cases fl <;> simp [createNewCastServerAttempts] <;>
      by_cases hrc : retryCount < 5 <;> simp [hrc] <;> omega
  · intro env retryCount p hp
    obtain ⟨fl, rl⟩ := env
    cases fl <;> simp [createNewCastServerAttempts] at hp <;>
      first
      | exact hp
      | (by_cases hrc : retryCount < 5 <;> simp [hrc] at hp <;> tauto)
  · intro env
    obtain ⟨fl, rl⟩ := env
    cases fl <;> simp [castServerAttemptsModular]
  · intro env retryCount
    obtain ⟨fl, rl⟩ := env
    cases fl <;> simp [createNewCastServerAttempts] <;>
      by_cases hrc : retryCount < 5 <;> simp [hrc] <;> omega

/-- Claim C6, witness: the theorem applied to the busy-port environment. -/
theorem cast_bind_direct_ephemeral_witness :
    (createNewCastServerAttempts castBusyEnv 0 = [.fixed castPort] ∨
      createNewCastServerAttempts castBusyEnv 0 =
        [.fixed castPort, .ephemeral]) ∧
    (8888 : Nat) = castPort := by
  refine ⟨cast_bind_direct_ephemeral.1 castBusyEnv 0, ?_⟩
  exact cast_bind_direct_ephemeral.2.1 castBusyEnv 0 8888 (by decide)

lemma leadsList_self_append (pat rest : List Char) :
    leadsList pat (pat ++ rest) = true := by
  induction pat with
  | nil => rfl
  | cons p ps ih => simp [leadsList, ih]

lemma removeFirstOccur_self_append (pat rest : List Char) (h : pat ≠ []) :
    removeFirstOccur pat (pat ++ rest) = rest := by
  match pat, h with
  | p :: ps, _ =>
    rw [List.cons_append, removeFirstOccur]
    rw [if_pos (by rw [← List.cons_append]; exact leadsList_self_append (p :: ps) rest)]
    rw [← List.cons_append, List.drop_left]

lemma splitDashList_no_dash (l : List Char) (h : ∀ c ∈ l, c ≠ '-') :
    splitDashList l = [l] := by
  induction l with
  | nil => rfl
  | cons c cs ih =>
    rw [splitDashList]
    rw [if_neg (h c (List.mem_cons_self c cs))]
    rw [ih (fun x hx => h x (List.mem_cons_of_mem c hx))]

lemma splitDashList_append_dash (ds es : List Char) (h : ∀ c ∈ ds, c ≠ '-') :
    splitDashList (ds ++ '-' :: es) = ds :: splitDashList es := by
  induction ds with
  | nil => rw [List.nil_append, splitDashList, if_pos rfl]
  | cons c cs ih =>
    rw [List.cons_append, splitDashList]
    rw [if_neg (h c (List.mem_cons_self c cs))]
    rw [ih (fun x hx => h x (List.mem_cons_of_mem c hx))]

lemma digit_not_special (c : Char) (h : c.isDigit = true) :
    c ≠ '-' ∧ c ≠ '+' ∧ isJsSpace c = false := by
  refine ⟨?_, ?_, ?_⟩
  · rintro rfl; simp at h
  · rintro rfl; simp at h
  · rw [isJsSpace]
    have h1 : c ≠ ' ' := by rintro rfl; simp at h
    have h2 : c ≠ '\t' := by rintro rfl; simp at h
    have h3 : c ≠ '\n' := by rintro rfl; simp at h
    have h4 : c ≠ '\r' := by rintro rfl; simp at h
    simp [h1, h2, h3, h4]

lemma takeDigits_all (l : List Char) (h : ∀ c ∈ l, c.isDigit = true) :
    takeDigits l = l := by
  induction l with
  | nil => rfl
  | cons c cs ih =>
    rw [takeDigits, List.takeWhile_cons]
    rw [h c (List.mem_cons_self c cs)]
    rw [← takeDigits, ih (fun x hx => h x (List.mem_cons_of_mem c hx))]
    simp

lemma parseIntCore_digits (ds : List Char) (h1 : ds ≠ [])
    (h2 : ∀ c ∈ ds, c.isDigit = true) :
    parseIntCore ds = some ((digitsToNat ds : Int)) := by
  match ds, h1 with
  | d :: rest, _ =>
    have hd := h2 d (List.mem_cons_self d rest)
    obtain ⟨hminus, hplus, hspace⟩ := digit_not_special d hd
    rw [parseIntCore]
    rw [List.dropWhile_cons]
    rw [hspace]
    simp [hminus, hplus, takeDigits_all (d :: rest) h2]

/-- Claim C8, counterexample: a video-route request whose Range header
parses to an inverted pair (start greater than end) receives no 206 at
all from the monolithic handler — `fs.createReadStream` throws before
`res.writeHead(206)`, so no response head is written. -/
theorem range_inverted_no_206_counterexample :
    serveLocalFileVideo 1000 (some "bytes=500-100") = none ∧
    rangeStart "bytes=500-100" = some 500 ∧
    rangeEnd 1000 "bytes=500-100" = some 100 := by
  decide

/-- Claim C8 (amended): a video-route request with a Range header whose
parsed bounds are integers with 0 ≤ start ≤ end (exactly the options the
`fs.createReadStream` constructor accepts) is answered 206 with
`Content-Range: bytes start-end/fileSize`, `Accept-Ranges: bytes` and
`Content-Length = end - start + 1`, in both the monolithic and the
modular handler; start is `parseInt` of the piece before the dash and
end defaults to `fileSize - 1` when the piece after the dash is absent or
empty, with numeric pieces parsing to their numeric values; without a
Range header the answer is 200 with `Content-Length = fileSize`; every
written response head carries `Access-Control-Allow-Origin: *`. A range
the constructor rejects gets no 206 body: the monolithic handler writes
no head at all (see the counterexample) and the modular one throws after
the head. -/
theorem range_request_response :
    (∀ (fileSize : Nat) (r : String) (a b : Int),
      rangeStart r = some a → rangeEnd fileSize r = some b →
      0 ≤ a → a ≤ b →
      serveLocalFileVideo fileSize (some r) =
        some (range206Head fileSize (some a) (some b)) ∧
      serveVideoFile fileSize (some r) =
        .ok (range206Head fileSize (some a) (some b)) ∧
      (range206Head fileSize (some a) (some b)).status = 206 ∧
      (range206Head fileSize (some a) (some b)).contentRange =
        some ("bytes " ++ toString a ++ "-" ++ toString b ++ "/" ++
          toString fileSize) ∧
      (range206Head fileSize (some a) (some b)).acceptRanges =
        some "bytes" ∧
      (range206Head fileSize (some a) (some b)).contentLength =
        some (b - a + 1)) ∧
    (∀ fileSize : Nat,
      serveLocalFileVideo fileSize none = some (fullBodyResponse fileSize) ∧
      serveVideoFile fileSize none = .ok (fullBodyResponse fileSize) ∧
      (fullBodyResponse fileSize).status = 200 ∧
      (fullBodyResponse fileSize).contentLength = some (fileSize : Int)) ∧
    (∀ (fileSize : Nat) (range : Option String) (resp : HttpResponse),
      serveLocalFileVideo fileSize range = some resp →
        resp.accessControlAllowOrigin = some "*") ∧
    (∀ (fileSize : Nat) (range : Option String),
      (modularHead (serveVideoFile fileSize range)).accessControlAllowOrigin =
        some "*") ∧
    (∀ (fileSize : Nat) (ds es : List Char), ds ≠ [] → es ≠ [] →
      (∀ c ∈ ds, c.isDigit = true) → (∀ c ∈ es, c.isDigit = true) →
      rangeStart ⟨bytesEqChars ++ ds ++ '-' :: es⟩ = some (digitsToNat ds) ∧
      rangeEnd fileSize ⟨bytesEqChars ++ ds ++ '-' :: es⟩ =
        some (digitsToNat es)) ∧
    (∀ (fileSize : Nat) (ds : List Char), ds ≠ [] →
      (∀ c ∈ ds, c.isDigit = true) →
      rangeEnd fileSize ⟨bytesEqChars ++ ds ++ ['-']⟩ =
        some ((fileSize : Int) - 1)) ∧
    serveLocalFileVideo 1000 (some "bytes=10-20") =
      some (range206Head 1000 (some 10) (some 20)) ∧
    (range206Head 1000 (some 10) (some 20)).contentRange =
      some "bytes 10-20/1000" ∧
    (range206Head 1000 (some 10) (some 20)).contentLength = some 11 ∧
    rangeEnd 1000 "bytes=10-" = some 999 := by
  have hparts : ∀ (ds es : List Char), (∀ c ∈ ds, c.isDigit = true) →
      rangeParts ⟨bytesEqChars ++ ds ++ '-' :: es⟩ = ds :: splitDashList es := by
    intro ds es hds
    rw [rangeParts]
    show splitDashList (removeFirstOccur bytesEqChars
      ((bytesEqChars ++ ds) ++ '-' :: es)) = _
    rw [List.append_assoc]
    rw [removeFirstOccur_self_append bytesEqChars (ds ++ '-' :: es) (by decide)]
    exact splitDashList_append_dash ds es
      (fun c hc => (digit_not_special c (hds c hc)).1)
  refine ⟨?_, ?_, ?_, ?_, ?_, ?_, by decide, by decide, by decide, by decide⟩
  · intro fileSize r a b hst hend h0 hab
    have hr : r ≠ "" := by
      rintro rfl
      rw [show rangeStart "" = none from by decide] at hst
      exact Option.noConfusion hst
    have hacc : readStreamAccepts (some a) (some b) = true := by
      simp only [readStreamAccepts, Bool.and_eq_true, decide_eq_true_eq]
      exact ⟨h0, hab⟩
    refine ⟨?_, ?_, rfl, rfl, rfl, rfl⟩
    · rw [serveLocalFileVideo, if_neg hr, hst, hend, if_pos hacc]
    · rw [serveVideoFile, if_neg hr, hst, hend, if_pos hacc]
  · intro fileSize
    exact ⟨rfl, rfl, rfl, rfl⟩
  · intro fileSize range resp hres
    cases range with
    | none =>
      rw [serveLocalFileVideo] at hres
      rw [← Option.some_inj.mp hres]
      rfl
    | some r =>
      rw [serveLocalFileVideo] at hres
      by_cases hr : r = ""
      · rw [if_pos hr] at hres
        rw [← Option.some_inj.mp hres]
        rfl
      · rw [if_neg hr] at hres
        by_cases hacc :
            readStreamAccepts (rangeStart r) (rangeEnd fileSize r) = true
        · rw [if_pos hacc] at hres
          rw [← Option.some_inj.mp hres]
          rfl
        · rw [if_neg hacc] at hres
          exact Option.noConfusion hres
  · intro fileSize range
    cases range with
    | none => rfl
    | some r =>
      rw [serveVideoFile]
      by_cases hr : r = ""
      · rw [if_pos hr]; rfl
      · rw [if_neg hr]
        by_cases hacc :
            readStreamAccepts (rangeStart r) (rangeEnd fileSize r) = true
        · rw [if_pos hacc]; rfl
        · rw [if_neg hacc]; rfl
  · intro fileSize ds es hds hes hd he
    have hp := hparts ds es hd
    have hesplit : splitDashList es = [es] :=
      splitDashList_no_dash es (fun c hc => (digit_not_special c (he c hc)).1)
    constructor
    · rw [rangeStart, hp]
      simp only [List.headD_cons]
      exact parseIntCore_digits ds hds hd
    · rw [rangeEnd, hp, hesplit]
      simp only [List.drop_succ_cons, List.drop_zero]
      rw [if_neg hes]
      exact parseIntCore_digits es hes he
  · intro fileSize ds hds hd
    have hp := hparts ds [] hd
    rw [rangeEnd, hp]
    rw [show splitDashList [] = [[]] from rfl]
    simp only [List.drop_succ_cons, List.drop_zero]
    simp

/-- Claim C8, witness: the amended theorem applied to "bytes=10-20", and
the parsing conjunct applied to its digit runs. -/
theorem range_request_response_witness :
    serveLocalFileVideo 1000 (some "bytes=10-20") =
      some (range206Head 1000 (some 10) (some 20)) ∧
    rangeStart ⟨bytesEqChars ++ ['1', '0'] ++ '-' :: ['2', '0']⟩ =
      some (digitsToNat ['1', '0']) := by
  constructor
  · exact (range_request_response.1 1000 "bytes=10-20" 10 20 (by decide)
      (by decide) (by decide) (by decide)).1
  · exact (range_request_response.2.2.2.2.1 1000 ['1', '0'] ['2', '0']
      (by decide) (by decide) (by decide) (by decide)).1

/-- Claim C10, counterexample: a Range header whose start is non-numeric
(NaN after parsing) — or whose start exceeds its end — is rejected by
the `fs.createReadStream` constructor before the monolithic handler
writes any head, so the request is not answered 206 at all, refuting the
claimed unconditional 206 with embedded NaN or inverted values. -/
theorem range_nan_no_206_counterexample :
    serveLocalFileVideo 1000 (some "bytes=abc-") = none ∧
    rangeStart "bytes=abc-" = none ∧
    serveLocalFileVideo 1000 (some "bytes=900-100") = none := by
  decide

/-- Claim C10 (amended): the handlers themselves validate nothing and no
request is ever answered 416 — every written head is 200 or 206; an end
at or beyond the file size passes the constructor and is embedded
verbatim in a genuine 206; but an inverted pair or NaN start makes
`fs.createReadStream` throw: the monolithic handler then writes no
response at all, while the modular handler has already written the 206
head embedding the raw (invalid or NaN) values and its catch throws
trying to write the 500. -/
theorem range_unvalidated_206 :
    (∀ (fileSize : Nat) (range : Option String) (resp : HttpResponse),
      serveLocalFileVideo fileSize range = some resp →
        resp.status ≠ 416 ∧ (resp.status = 200 ∨ resp.status = 206)) ∧
    (∀ (fileSize : Nat) (range : Option String),
      (modularHead (serveVideoFile fileSize range)).status ≠ 416 ∧
      ((modularHead (serveVideoFile fileSize range)).status = 200 ∨
        (modularHead (serveVideoFile fileSize range)).status = 206)) ∧
    serveLocalFileVideo 1000 (some "bytes=0-999999") =
      some (range206Head 1000 (some 0) (some 999999)) ∧
    (range206Head 1000 (some 0) (some 999999)).contentRange =
      some "bytes 0-999999/1000" ∧
    (range206Head 1000 (some 0) (some 999999)).contentLength =
      some 1000000 ∧
    serveLocalFileVideo 1000 (some "bytes=500-100") = none ∧
    serveVideoFile 1000 (some "bytes=500-100") =
      .headWrittenThenThrow (range206Head 1000 (some 500) (some 100)) ∧
    (range206Head 1000 (some 500) (some 100)).contentRange =
      some "bytes 500-100/1000" ∧
    (range206Head 1000 (some 500) (some 100)).contentLength =
      some (-399) ∧
    serveVideoFile 1000 (some "bytes=abc-") =
      .headWrittenThenThrow (range206Head 1000 none (some 999)) ∧
    (range206Head 1000 none (some 999)).contentRange =
      some "bytes NaN-999/1000" ∧
    (range206Head 1000 none (some 999)).contentLength = none := by
  refine ⟨?_, ?_, by decide, by decide, by decide, by decide, by decide,
    by decide, by decide, by decide, by decide, by decide⟩
  · intro fileSize range resp hres
    cases range with
    | none =>
      rw [serveLocalFileVideo] at hres
      rw [← Option.some_inj.mp hres]
      exact ⟨by simp [fullBodyResponse], Or.inl rfl⟩
    | some r =>
      rw [serveLocalFileVideo] at hres
      by_cases hr : r = ""
      · rw [if_pos hr] at hres
        rw [← Option.some_inj.mp hres]
        exact ⟨by simp [fullBodyResponse], Or.inl rfl⟩
      · rw [if_neg hr] at hres
        by_cases hacc :
            readStreamAccepts (rangeStart r) (rangeEnd fileSize r) = true
        · rw [if_pos hacc] at hres
          rw [← Option.some_inj.mp hres]
          exact ⟨by simp [range206Head], Or.inr rfl⟩
        · rw [if_neg hacc] at hres
          exact Option.noConfusion hres
  · intro fileSize range
    cases range with
    | none =>
      exact ⟨by simp [serveVideoFile, modularHead, fullBodyResponse],
        Or.inl rfl⟩
    | some r =>
      rw [serveVideoFile]
      by_cases hr : r = ""
      · rw [if_pos hr]
        exact ⟨by simp [modularHead, fullBodyResponse], Or.inl rfl⟩
      · rw [if_neg hr]
        by_cases hacc :
            readStreamAccepts (rangeStart r) (rangeEnd fileSize r) = true
        · rw [if_pos hacc]
          exact ⟨by simp [modularHead, range206Head], Or.inr rfl⟩
        · rw [if_neg hacc]
          exact ⟨by simp [modularHead, range206Head], Or.inr rfl⟩

/-- Claim C10, witness: the no-416 clauses applied to an out-of-file
range on the monolithic path and a NaN range on the modular path. -/
theorem range_unvalidated_206_witness :
    (range206Head 1000 (some 0) (some 999999)).status ≠ 416 ∧
    (modularHead (serveVideoFile 1000 (some "bytes=abc-"))).status ≠ 416 := by
  constructor
  · exact (range_unvalidated_206.1 1000 (some "bytes=0-999999")
      (range206Head 1000 (some 0) (some 999999)) (by decide)).1
  · exact (range_unvalidated_206.2.1 1000 (some "bytes=abc-")).1

lemma takeWhile_until_colon (cs : List Char) (h : ∀ c ∈ cs, c ≠ ':')
    (rest : List Char) :
    (cs ++ ':' :: rest).takeWhile (fun c => c ≠ ':') = cs := by
  induction cs with
  | nil => simp
  | cons c cs2 ih =>
    rw [List.cons_append, List.takeWhile_cons]
    have hc := h c (List.mem_cons_self c cs2)
    simp [hc]
    simpa using ih (fun x hx => h x (List.mem_cons_of_mem c hx))

lemma hostOfUrl_build (ip : String) (tail : List Char)
    (h : ∀ c ∈ ip.toList, c ≠ ':') :
    hostOfUrl ⟨"http://".data ++ (ip.data ++ ':' :: tail)⟩ = ip := by
  rw [hostOfUrl]
  have h7 : ("http://".data).length = 7 := rfl
  show (⟨((("http://".data ++ (ip.data ++ ':' :: tail)).drop 7).takeWhile
    (fun c => c ≠ ':'))⟩ : String) = ip
  rw [← h7, List.drop_left]
  rw [takeWhile_until_colon ip.data h tail]

lemma hostOfUrl_of_data (u ip : String) (tail : List Char)
    (hdata : u.data = "http://".data ++ (ip.data ++ ':' :: tail))
    (h : ∀ c ∈ ip.toList, c ≠ ':') : hostOfUrl u = ip := by
  have hu : u = ⟨"http://".data ++ (ip.data ++ ':' :: tail)⟩ := by
    cases u
    simp_all
  rw [hu]
  exact hostOfUrl_build ip tail h

lemma hostOfUrl_castUrl (ip : String) (port idx : Nat) (name : String)
    (h : ∀ c ∈ ip.toList, c ≠ ':') :
    hostOfUrl (castUrl ip port idx name) = ip := by
  refine hostOfUrl_of_data _ ip
    ((toString port).data ++ '/' :: ((toString idx).data ++ '/' ::
      (encodeURIComponent name).data)) ?_ h
  simp [castUrl, String.data_append, List.append_assoc]

lemma hostOfUrl_castLocalUrl (ip : String) (port : Nat)
    (h : ∀ c ∈ ip.toList, c ≠ ':') :
    hostOfUrl (castLocalUrl ip port) = ip := by
  refine hostOfUrl_of_data _ ip
    ((toString port).data ++ "/video.mp4".data) ?_ h
  simp [castLocalUrl, String.data_append, List.append_assoc]

lemma createNewCastServerResult_host (localIp : String) (idx : Nat)
    (fn : Option String) (env : CastEnv) (rc : Nat) (u : String)
    (hip : ∀ c ∈ localIp.toList, c ≠ ':')
    (hres : createNewCastServerResult localIp idx fn env rc = some u) :
    hostOfUrl u = localIp := by
  rw [createNewCastServerResult] at hres
  match henv : env.fixedListen with
  | .bound p =>
    rw [henv] at hres
    rw [← Option.some_inj.mp hres]
    exact hostOfUrl_castUrl localIp p idx (fileNameArg fn) hip
  | .addrInUse =>
    rw [henv] at hres
    by_cases hrc : rc < 5
    · rw [if_pos hrc] at hres
      match hrnd : env.randomListen with
      | .bound p =>
        rw [hrnd] at hres
        rw [← Option.some_inj.mp hres]
        exact hostOfUrl_castUrl localIp p idx (fileNameArg fn) hip
      | .addrInUse => rw [hrnd] at hres; exact absurd hres (by simp)
      | .failed => rw [hrnd] at hres; exact absurd hres (by simp)
    · rw [if_neg hrc] at hres; exact absurd hres (by simp)
  | .failed => rw [henv] at hres; exact absurd hres (by simp)

/-- The rebind state of the C5 scenario: one single-file torrent active. -/
def rebindStateEx : RebindState :=
  { activeTorrent := true, torrentFiles := [⟨"video.mp4", 1000⟩],
    activeFileIndex := some 0, activeFileName := some "video.mp4" }

/-- A cast environment whose fixed-port listen binds 8888. -/
def castEnvOk : CastEnv := { fixedListen := .bound 8888, randomListen := .bound 50123 }

/-- Claim C5, counterexample: the returned URL embeds the `lanAddress`
argument verbatim, so calling the rebind with `127.0.0.1` yields a URL
containing `127.0.0.1` — the claimed "never returns a URL containing
127.0.0.1, for every value of the lanAddress argument" fails. -/
theorem cast_url_loopback_counterexample :
    rebindServerForCast rebindStateEx "127.0.0.1" castEnvOk =
      some "http://127.0.0.1:8888/0/video.mp4" ∧
    strOccurs "127.0.0.1" "http://127.0.0.1:8888/0/video.mp4" = true ∧
    rebindServerForCast rebindStateEx "127.0.0.1" castEnvOk ≠ none := by
  refine ⟨by decide, by decide, by decide⟩

/-- Claim C5 (amended): `rebindServerForCast` (and both modular cast
resolution paths) either returns null or a URL whose host component is
exactly the supplied `lanAddress`; the URL therefore has host `127.0.0.1`
only when the caller passes `127.0.0.1` itself. -/
theorem cast_url_embeds_lan_host :
    (∀ (st : RebindState) (localIp : String) (env : CastEnv) (u : String),
      (∀ c ∈ localIp.toList, c ≠ ':') →
      rebindServerForCast st localIp env = some u →
        hostOfUrl u = localIp) ∧
    (∀ (localIp : String) (fileIndex : Nat) (fileName : Option String)
       (env : CastEnv) (u : String),
      (∀ c ∈ localIp.toList, c ≠ ':') →
      createTorrentCastServerResult localIp fileIndex fileName env = some u →
        hostOfUrl u = localIp) ∧
    (∀ (localIp : String) (env : CastEnv) (u : String),
      (∀ c ∈ localIp.toList, c ≠ ':') →
      createLocalCastServerResult localIp env = some u →
        hostOfUrl u = localIp) := by
  refine ⟨?_, ?_, ?_⟩
  · intro st localIp env u hip hres
    obtain ⟨at0, files, afi, afn⟩ := st
    rw [rebindServerForCast] at hres
    cases at0
    case false => exact Option.noConfusion hres
    case true =>
      cases afi with
      | none => exact Option.noConfusion hres
      | some idx =>
        replace hres : (match files.get? idx with
          | none => (none : Option String)
          | some _ => createNewCastServerResult localIp idx afn env 0) =
            some u := hres
        match hget : files.get? idx with
        | none => rw [hget] at hres; exact Option.noConfusion hres
        | some f =>
          rw [hget] at hres
          exact createNewCastServerResult_host localIp idx afn env 0 u hip hres
  · intro localIp fileIndex fileName env u hip hres
    rw [createTorrentCastServerResult] at hres
    match henv : env.fixedListen with
    | .bound p =>
      rw [henv] at hres
      rw [← Option.some_inj.mp hres]
      exact hostOfUrl_castUrl localIp p fileIndex (fileNameArg fileName) hip
    | .addrInUse =>
      rw [henv] at hres
      match hrnd : env.randomListen with
      | .bound p =>
        rw [hrnd] at hres
        rw [← Option.some_inj.mp hres]
        exact hostOfUrl_castUrl localIp p fileIndex (fileNameArg fileName) hip
      | .addrInUse => rw [hrnd] at hres; exact absurd hres (by simp)
      | .failed => rw [hrnd] at hres; exact absurd hres (by simp)
    | .failed => rw [henv] at hres; exact absurd hres (by simp)
  · intro localIp env u hip hres
    rw [createLocalCastServerResult] at hres
    match henv : env.fixedListen with
    | .bound p =>
      rw [henv] at hres
      rw [← Option.some_inj.mp hres]
      exact hostOfUrl_castLocalUrl localIp p hip
    | .addrInUse =>
      rw [henv] at hres
      match hrnd : env.randomListen with
      | .bound p =>
        rw [hrnd] at hres
        rw [← Option.some_inj.mp hres]
        exact hostOfUrl_castLocalUrl localIp p hip
      | .addrInUse => rw [hrnd] at hres; exact absurd hres (by simp)
      | .failed => rw [hrnd] at hres; exact absurd hres (by simp)
    | .failed => rw [henv] at hres; exact absurd hres (by simp)

/-- Claim C5, witness: the theorem applied to a LAN address. -/
theorem cast_url_embeds_lan_host_witness :
    hostOfUrl "http://192.168.1.50:8888/0/video.mp4" = "192.168.1.50" := by
  exact cast_url_embeds_lan_host.1 rebindStateEx "192.168.1.50" castEnvOk
    "http://192.168.1.50:8888/0/video.mp4" (by decide) (by decide)

end GlassCinema
